import Mathlib

/-!
Shallow embedding of the MASR training/checkpoint lifecycle controller
(`masr/trainer.py`), covering the epoch loop and resume logic of
`MASRTrainer.train`, the checkpoint store `MASRTrainer.save_model`, the
evaluator `MASRTrainer.__test` / `MASRTrainer.evaluate`, the decoder
dispatch `MASRTrainer.decoder_result`, the pretrained-weight loading, and
the `KeyboardInterrupt` handler.
-/

namespace MASR

/-! ## Epoch loop (`MASRTrainer.train`, lines 338-359)

Python: `last_epoch = json_data['last_epoch'] - 1` on resume (line 340),
`last_epoch = -1` otherwise, then
`for epoch in range(last_epoch, num_epoch): epoch += 1 ...` (lines 358-359).
-/

/-- Python `range(a, b)` over integers, as a list. -/
def pythonRange (a b : Int) : List Int :=
  (List.range (b - a).toNat).map (fun (i : Nat) => a + (i : Int))

/-- The training-loop variable `last_epoch` recovered on resume from a
checkpoint whose `model.state` records `last_epoch = E`
(trainer.py line 340: `last_epoch = json_data['last_epoch'] - 1`). -/
def restoredLastEpoch (E : Int) : Int := E - 1

/-- The sequence of epoch indices the body of the training loop executes,
given the loop variable `last_epoch` and `num_epoch`: the loop is
`for epoch in range(last_epoch, num_epoch)` with `epoch += 1` as its first
statement, so the body sees each range element incremented by one. -/
def epochsRun (last_epoch num_epoch : Int) : List Int :=
  (pythonRange last_epoch num_epoch).map (fun e => e + 1)

/-- Epoch indices executed when `train` resumes from a checkpoint whose
state record has `last_epoch = E`. -/
def resumeEpochsRun (E num_epoch : Int) : List Int :=
  epochsRun (restoredLastEpoch E) num_epoch

theorem mem_pythonRange (a b n : Int) : n ∈ pythonRange a b ↔ a ≤ n ∧ n < b := by
  unfold pythonRange
  simp only [List.mem_map, List.mem_range]
  constructor
  · rintro ⟨i, hi, rfl⟩
    omega
  · rintro ⟨h1, h2⟩
    exact ⟨(n - a).toNat, by omega, by omega⟩

theorem length_pythonRange (a b : Int) : (pythonRange a b).length = (b - a).toNat := by
  simp [pythonRange]

theorem epochsRun_eq (last_epoch num_epoch : Int) :
    epochsRun last_epoch num_epoch = pythonRange (last_epoch + 1) (num_epoch + 1) := by
  unfold epochsRun pythonRange
  have harg : (num_epoch - last_epoch).toNat = (num_epoch + 1 - (last_epoch + 1)).toNat := by
    omega
  rw [List.map_map, harg]
  apply List.map_congr_left
  intro i _
  simp only [Function.comp_apply]
  ring

theorem resumeEpochsRun_eq (E num_epoch : Int) :
    resumeEpochsRun E num_epoch = pythonRange E (num_epoch + 1) := by
  unfold resumeEpochsRun restoredLastEpoch
  rw [epochsRun_eq]
  congr 1
  ring

/-- C1: the claim as stated is false on the code. Resuming from a checkpoint
whose state record has `last_epoch = 5` and requesting `num_epoch = 5` performs
one further training epoch (re-running epoch 5), not zero, and the loop starts
at epoch 5, not epoch 6. -/
theorem C1_counterexample :
    resumeEpochsRun 5 5 = [5] ∧ resumeEpochsRun 5 5 ≠ [] ∧
      (resumeEpochsRun 5 5).head? ≠ some 6 := by
  refine ⟨?_, ?_, ?_⟩ <;> decide

/-- C1 (amended): for every resume where the restored checkpoint state record
has `last_epoch = E`, the training loop runs exactly the epochs `E, E+1, ...,
num_epoch` — it re-runs the recorded epoch `E` once and only then continues;
resuming with `num_epoch = E` performs exactly one additional training epoch,
namely epoch `E` itself. -/
theorem C1_resume_restarts_at_recorded_epoch (E num_epoch : Int) :
    (∀ n : Int, n ∈ resumeEpochsRun E num_epoch ↔ E ≤ n ∧ n ≤ num_epoch) ∧
    (resumeEpochsRun E num_epoch).length = (num_epoch + 1 - E).toNat ∧
    resumeEpochsRun E E = [E] := by
  refine ⟨?_, ?_, ?_⟩
  · intro n
    rw [resumeEpochsRun_eq, mem_pythonRange]
    omega
  · rw [resumeEpochsRun_eq, length_pythonRange]
  · rw [resumeEpochsRun_eq, pythonRange]
    have h1 : (E + 1 - E).toNat = 1 := by omega
    rw [h1, show List.range 1 = [0] from rfl]
    norm_num

/-- Concrete instantiation of `C1_resume_restarts_at_recorded_epoch`: a resume
from state record `last_epoch = 2` with `num_epoch = 2` runs exactly epoch 2,
and a resume from `last_epoch = 3` with `num_epoch = 7` runs epoch 5. -/
theorem C1_resume_restarts_at_recorded_epoch_witness :
    resumeEpochsRun 2 2 = [2] ∧ (5 : ℤ) ∈ resumeEpochsRun 3 7 :=
  ⟨(C1_resume_restarts_at_recorded_epoch 2 2).2.2,
   ((C1_resume_restarts_at_recorded_epoch 3 7).1 5).mpr (by norm_num)⟩

/-! ## End-of-epoch best-model selection (`MASRTrainer.train`, lines 417-425)

Python: `if c <= best_error_rate: best_error_rate = c; self.save_model(...,
best_model=True)` once per epoch, on the coordinator. -/

/-- One end-of-epoch best-model decision: given the current `best_error_rate`
and the new epoch error rate `c`, returns the updated `best_error_rate` and
whether `best_model` is (re)written this epoch (trainer.py lines 418-419). -/
def bestModelStep (best_error_rate c : ℚ) : ℚ × Bool :=
  if c ≤ best_error_rate then (c, true) else (best_error_rate, false)

/-- Iterating the end-of-epoch best-model decision over the sequence `cs` of
per-epoch evaluation error rates: returns the final `best_error_rate` and the
list of metric values recorded in `best_model` by the successive writes, in
order. -/
def epochEndRun (init : ℚ) : List ℚ → ℚ × List ℚ
  | [] => (init, [])
  | c :: cs =>
    let s := bestModelStep init c
    let r := epochEndRun s.1 cs
    (r.1, if s.2 then c :: r.2 else r.2)

theorem epochEndRun_writes_le (init : ℚ) (cs : List ℚ) :
    ∀ x ∈ (epochEndRun init cs).2, x ≤ init := by
  induction cs generalizing init with
  | nil =>
    intro x hx
    simp [epochEndRun] at hx
  | cons c cs ih =>
    intro x hx
    by_cases h : c ≤ init
    · simp only [epochEndRun, bestModelStep, if_pos h] at hx
      rcases List.mem_cons.mp hx with rfl | hx
      · exact h
      · exact le_trans (ih c x hx) h
    · simp only [epochEndRun, bestModelStep, if_neg h] at hx
      exact ih init x hx

theorem epochEndRun_writes_pairwise (init : ℚ) (cs : List ℚ) :
    ((epochEndRun init cs).2).Pairwise (fun a b => b ≤ a) := by
  induction cs generalizing init with
  | nil =>
    simp [epochEndRun]
  | cons c cs ih =>
    by_cases h : c ≤ init
    · simp only [epochEndRun, bestModelStep, if_pos h]
      exact List.Pairwise.cons (fun x hx => epochEndRun_writes_le c cs x hx) (ih c)
    · simp only [epochEndRun, bestModelStep, if_neg h]
      exact ih init

theorem epochEndRun_best_le_init (init : ℚ) (cs : List ℚ) :
    (epochEndRun init cs).1 ≤ init := by
  induction cs generalizing init with
  | nil =>
    simp [epochEndRun]
  | cons c cs ih =>
    by_cases h : c ≤ init
    · simp only [epochEndRun, bestModelStep, if_pos h]
      exact le_trans (ih c) h
    · simp only [epochEndRun, bestModelStep, if_neg h]
      exact ih init

theorem epochEndRun_best_le_seen (init : ℚ) (cs : List ℚ) :
    ∀ x ∈ cs, (epochEndRun init cs).1 ≤ x := by
  induction cs generalizing init with
  | nil =>
    intro x hx
    simp at hx
  | cons c cs ih =>
    intro x hx
    by_cases h : c ≤ init
    · simp only [epochEndRun, bestModelStep, if_pos h]
      rcases List.mem_cons.mp hx with rfl | hx2
      · exact epochEndRun_best_le_init x cs
      · exact ih c x hx2
    · simp only [epochEndRun, bestModelStep, if_neg h]
      rcases List.mem_cons.mp hx with rfl | hx2
      · exact le_trans (epochEndRun_best_le_init init cs) (le_of_not_le h)
      · exact ih init x hx2

/-- C3: at every end-of-epoch checkpoint, `best_model` is (re)written if and
only if the new error rate `c` is `≤` the current `best_error_rate` (non-strict,
so a tie refreshes `best_model`); the running `best_error_rate` is a lower bound
of the initial value and every error rate seen so far; and the sequence of
metric values recorded by the successive `best_model` writes is non-increasing. -/
theorem C3_best_model_selection (init c : ℚ) (cs : List ℚ) :
    ((bestModelStep init c).2 = true ↔ c ≤ init) ∧
    ((epochEndRun init cs).1 ≤ init ∧ ∀ x ∈ cs, (epochEndRun init cs).1 ≤ x) ∧
    ((epochEndRun init cs).2).Pairwise (fun a b => b ≤ a) := by
  refine ⟨?_, ⟨epochEndRun_best_le_init init cs, epochEndRun_best_le_seen init cs⟩,
    epochEndRun_writes_pairwise init cs⟩
  unfold bestModelStep
  by_cases h : c ≤ init <;> simp [h]

/-- Concrete instantiation of `C3_best_model_selection`: a tie (`c = 1`) against
`best_error_rate = 1` writes `best_model`, and after the run `[1/2, 3/4, 1/4]`
the running best is below the later value `3/4`. -/
theorem C3_best_model_selection_witness :
    (bestModelStep 1 1).2 = true ∧ (epochEndRun 1 [1/2, 3/4, 1/4]).1 ≤ 3/4 :=
  ⟨(C3_best_model_selection 1 1 []).1.mpr (by norm_num),
   (C3_best_model_selection 1 0 [1/2, 3/4, 1/4]).2.1.2 (3/4) (by norm_num)⟩

/-! ## `best_error_rate` initialization on resume (`MASRTrainer.train`, lines 324-344)

Python: `best_error_rate = 1.0`; on resume, `if 'test_cer' in json_data.keys():
best_error_rate = abs(json_data['test_cer'])` then `if 'test_wer' in
json_data.keys(): best_error_rate = abs(json_data['test_wer'])`. -/

/-- The parsed `model.state` JSON record of a checkpoint directory. -/
structure JsonState where
  last_epoch : Int
  test_cer : Option ℚ
  test_wer : Option ℚ
deriving DecidableEq

/-- The arguments of one `save_model` state record: `save_model` writes
`model.state` with keys `last_epoch`, `test_<error_type>` and `test_loss`
(trainer.py lines 495-496 and 509-510). -/
structure StateRecord where
  last_epoch : Int
  error_type : String
  error_rate : ℚ
  test_loss : ℚ
deriving DecidableEq

/-- The `model.state` JSON written for a `StateRecord`: the metric value is
stored under the single key `test_<error_type>`. -/
def recordToJson (r : StateRecord) : JsonState :=
  { last_epoch := r.last_epoch
    test_cer := if r.error_type = "cer" then some r.error_rate else none
    test_wer := if r.error_type = "wer" then some r.error_rate else none }

/-- Initial `best_error_rate` in `train`: `1.0` without a resume; on resume,
the `test_cer` key of the restored record overwrites it, then the `test_wer`
key overwrites that (trainer.py lines 325, 341-344). -/
def resumeBestErrorRate : Option JsonState → ℚ
  | none => 1
  | some j =>
    let b : ℚ := 1
    let b := match j.test_cer with
      | some v => |v|
      | none => b
    match j.test_wer with
    | some v => |v|
    | none => b

/-- C9: on resume, `best_error_rate` is initialized to the absolute value of the
`test_cer` recorded in the resumed checkpoint's state record, with `test_wer`
taking precedence when both keys exist; it is the resumed (most recent) record's
value alone, and without a resume it is `1`. In particular the record saved by
`save_model` with metric kind `cer` (resp. `wer`) and value `r` initializes it
to `|r|`. -/
theorem C9_resume_best_error_rate_init (j : JsonState) (w c : ℚ) :
    resumeBestErrorRate none = 1 ∧
    (j.test_wer = some w → resumeBestErrorRate (some j) = |w|) ∧
    (j.test_wer = none → j.test_cer = some c → resumeBestErrorRate (some j) = |c|) ∧
    (j.test_wer = none → j.test_cer = none → resumeBestErrorRate (some j) = 1) ∧
    (∀ e r l, resumeBestErrorRate (some (recordToJson ⟨e, "cer", r, l⟩)) = |r|) ∧
    (∀ e r l, resumeBestErrorRate (some (recordToJson ⟨e, "wer", r, l⟩)) = |r|) := by
  refine ⟨rfl, ?_, ?_, ?_, ?_, ?_⟩
  · intro hw
    simp [resumeBestErrorRate, hw]
  · intro hw hc
    simp [resumeBestErrorRate, hw, hc]
  · intro hw hc
    simp [resumeBestErrorRate, hw, hc]
  · intro e r l
    simp [resumeBestErrorRate, recordToJson]
  · intro e r l
    simp [resumeBestErrorRate, recordToJson]

/-- Concrete instantiation of `C9_resume_best_error_rate_init`: a record with
both `test_cer = 1/2` and `test_wer = -1/4` initializes `best_error_rate` to
`|-1/4| = 1/4` (the `wer` key wins), and one with only `test_cer = 1/2` gives
`1/2`. -/
theorem C9_resume_best_error_rate_init_witness :
    resumeBestErrorRate (some ⟨7, some (1/2), some (-1/4)⟩) = 1/4 ∧
    resumeBestErrorRate (some ⟨7, some (1/2), none⟩) = 1/2 := by
  constructor
  · have h := (C9_resume_best_error_rate_init ⟨7, some (1/2), some (-1/4)⟩ (-1/4) (1/2)).2.1 rfl
    rw [h]
    norm_num
  · have h := (C9_resume_best_error_rate_init ⟨7, some (1/2), none⟩ 0 (1/2)).2.2.1 rfl rfl
    rw [h]
    norm_num

/-! ## Evaluator (`MASRTrainer.__test`, lines 449-485, and
`MASRTrainer.evaluate`, lines 192-213)

`__test` appends one mean loss per batch to `test_loss` and one error value per
sample to `cer_result`, then returns `sum/len` of each list. `evaluate` appends
one error value per sample to `c` and returns `sum(c)/len(c)`. The per-sample
metric is `wer(out_string, label)` when `self.metrics_type == 'wer'`, else
`cer(out_string, label)`. -/

/-- One evaluation batch: the per-sample CTC loss values produced with
`reduction='none'` (whose `.mean()` is the batch loss appended to `test_loss`)
and the per-sample (decoded hypothesis, reference) string pairs. -/
structure TestBatch where
  losses : List ℚ
  samples : List (String × String)

/-- The per-sample metric dispatch (trainer.py lines 208-211 and 473-476):
`wer` when `metrics_type` equals the string `"wer"`, otherwise `cer`. There is
no validation of `metrics_type` anywhere. -/
def sampleMetric (werFn cerFn : String → String → ℚ) (metrics_type : String)
    (hyp ref : String) : ℚ :=
  if metrics_type = "wer" then werFn hyp ref else cerFn hyp ref

/-- The error values one batch appends (one per sample). -/
def batchErrors (werFn cerFn : String → String → ℚ) (metrics_type : String)
    (b : TestBatch) : List ℚ :=
  b.samples.map (fun p => sampleMetric werFn cerFn metrics_type p.1 p.2)

/-- The single loss value one batch appends: `loss.mean()` over the per-sample
losses of the batch (trainer.py lines 462-464). -/
def batchMeanLoss (b : TestBatch) : ℚ :=
  b.losses.sum / (b.losses.length : ℚ)

/-- The accumulation loop of `__test` (trainer.py lines 451-478): `cer_result`
collects one error value per sample, `test_loss` one mean loss per batch. -/
def testFold (werFn cerFn : String → String → ℚ) (metrics_type : String)
    (batches : List TestBatch) : List ℚ × List ℚ :=
  batches.foldl
    (fun acc b => (acc.1 ++ batchErrors werFn cerFn metrics_type b,
                   acc.2 ++ [batchMeanLoss b]))
    ([], [])

/-- The value `__test` returns (trainer.py lines 483-485):
`(sum(cer_result)/len(cer_result), sum(test_loss)/len(test_loss))`. -/
def testCompute (werFn cerFn : String → String → ℚ) (metrics_type : String)
    (batches : List TestBatch) : ℚ × ℚ :=
  let r := testFold werFn cerFn metrics_type batches
  (r.1.sum / (r.1.length : ℚ), r.2.sum / (r.2.length : ℚ))

/-- The accumulation loop of `evaluate` (trainer.py lines 192-211): the list `c`
collects one error value per sample across all batches. -/
def evaluateErrors (werFn cerFn : String → String → ℚ) (metrics_type : String)
    (batches : List TestBatch) : List ℚ :=
  batches.foldl (fun acc b => acc ++ batchErrors werFn cerFn metrics_type b) []

/-- The value `evaluate` returns (trainer.py line 212): `sum(c)/len(c)`. -/
def evaluateCompute (werFn cerFn : String → String → ℚ) (metrics_type : String)
    (batches : List TestBatch) : ℚ :=
  let cs := evaluateErrors werFn cerFn metrics_type batches
  cs.sum / (cs.length : ℚ)

theorem testFold_eq (werFn cerFn : String → String → ℚ) (metrics_type : String)
    (batches : List TestBatch) :
    testFold werFn cerFn metrics_type batches =
      ((batches.map (batchErrors werFn cerFn metrics_type)).flatten,
       batches.map batchMeanLoss) := by
  unfold testFold
  suffices h : ∀ (a1 a2 : List ℚ),
      batches.foldl
        (fun acc b => (acc.1 ++ batchErrors werFn cerFn metrics_type b,
                       acc.2 ++ [batchMeanLoss b]))
        (a1, a2) =
      (a1 ++ (batches.map (batchErrors werFn cerFn metrics_type)).flatten,
       a2 ++ batches.map batchMeanLoss) by
    simpa using h [] []
  induction batches with
  | nil =>
    intro a1 a2
    simp
  | cons b bs ih =>
    intro a1 a2
    simp only [List.foldl_cons, List.map_cons, List.flatten_cons, ih, List.append_assoc,
      List.cons_append, List.nil_append]

theorem evaluateErrors_eq (werFn cerFn : String → String → ℚ)
    (metrics_type : String) (batches : List TestBatch) :
    evaluateErrors werFn cerFn metrics_type batches =
      (batches.map (batchErrors werFn cerFn metrics_type)).flatten := by
  unfold evaluateErrors
  suffices h : ∀ a : List ℚ,
      batches.foldl (fun acc b => acc ++ batchErrors werFn cerFn metrics_type b) a =
      a ++ (batches.map (batchErrors werFn cerFn metrics_type)).flatten by
    simpa using h []
  induction batches with
  | nil =>
    intro a
    simp
  | cons b bs ih =>
    intro a
    simp only [List.foldl_cons, List.map_cons, List.flatten_cons, ih, List.append_assoc]

/-- C8: the Evaluator returns the error rate as the arithmetic mean of the
per-sample error values over all samples seen (one value per sample,
concatenated across batches) and the loss as the arithmetic mean of the
per-batch mean losses (one value per batch), independent of how the samples are
split into batches. -/
theorem C8_test_returns_means (werFn cerFn : String → String → ℚ)
    (metrics_type : String) (batches : List TestBatch) :
    (testFold werFn cerFn metrics_type batches).1.length
        = (batches.map (fun b => b.samples.length)).sum ∧
    (testFold werFn cerFn metrics_type batches).2.length = batches.length ∧
    testCompute werFn cerFn metrics_type batches =
      (((batches.map (batchErrors werFn cerFn metrics_type)).flatten.sum /
          (((batches.map (fun b => b.samples.length)).sum : ℕ) : ℚ)),
       ((batches.map batchMeanLoss).sum / (batches.length : ℚ))) := by
  have hf := testFold_eq werFn cerFn metrics_type batches
  have hlen : (batches.map (batchErrors werFn cerFn metrics_type)).flatten.length
      = (batches.map (fun b => b.samples.length)).sum := by
    rw [List.length_flatten]
    congr 1
    rw [List.map_map]
    apply List.map_congr_left
    intro b _
    simp [batchErrors]
  refine ⟨?_, ?_, ?_⟩
  · rw [hf]
    exact hlen
  · rw [hf]
    simp
  · unfold testCompute
    rw [hf]
    simp only [hlen, List.length_map]

/-- Concrete instantiation of `C8_test_returns_means`: on a single two-sample
batch, `test_loss` holds exactly one (per-batch) loss value. -/
theorem C8_test_returns_means_witness :
    (testFold (fun _ _ => 0) (fun _ _ => 0) "cer" [⟨[1, 2], [("a", "x"), ("b", "y")]⟩]).2.length
      = ([⟨[1, 2], [("a", "x"), ("b", "y")]⟩] : List TestBatch).length :=
  (C8_test_returns_means (fun _ _ => 0) (fun _ _ => 0) "cer"
    [⟨[1, 2], [("a", "x"), ("b", "y")]⟩]).2.1

/-- C10: for every value of `metrics_type` other than the exact string `"wer"`
(including arbitrary invalid strings), both `evaluate` and the end-of-epoch
evaluation `__test` compute the character error rate for every sample —
`metrics_type` is never validated and the dispatch is a total function, so no
error is raised for unknown values. -/
theorem C10_unknown_metrics_type_uses_cer (werFn cerFn : String → String → ℚ)
    (metrics_type : String) (hyp ref : String) (batches : List TestBatch)
    (hmt : metrics_type ≠ "wer") :
    sampleMetric werFn cerFn metrics_type hyp ref = cerFn hyp ref ∧
    evaluateErrors werFn cerFn metrics_type batches =
      (batches.map (fun b => b.samples.map (fun p => cerFn p.1 p.2))).flatten ∧
    (testFold werFn cerFn metrics_type batches).1 =
      (batches.map (fun b => b.samples.map (fun p => cerFn p.1 p.2))).flatten := by
  have hb : ∀ b, batchErrors werFn cerFn metrics_type b
      = b.samples.map (fun p => cerFn p.1 p.2) := by
    intro b
    unfold batchErrors sampleMetric
    simp [hmt]
  refine ⟨?_, ?_, ?_⟩
  · unfold sampleMetric
    rw [if_neg hmt]
  · rw [evaluateErrors_eq]
    congr 1
    exact List.map_congr_left (fun b _ => hb b)
  · rw [testFold_eq]
    show (batches.map (batchErrors werFn cerFn metrics_type)).flatten = _
    congr 1
    exact List.map_congr_left (fun b _ => hb b)

/-- Concrete instantiation of `C10_unknown_metrics_type_uses_cer`: with the
invalid `metrics_type = "abc"`, the per-sample metric is the `cer` collaborator
(here the constant `3`), not the `wer` one (the constant `2`). -/
theorem C10_unknown_metrics_type_uses_cer_witness :
    sampleMetric (fun _ _ => 2) (fun _ _ => 3) "abc" "h" "r" = 3 :=
  (C10_unknown_metrics_type_uses_cer (fun _ _ => 2) (fun _ _ => 3) "abc" "h" "r" []
    (by decide)).1

/-! ## Checkpoint store (`MASRTrainer.save_model`, lines 488-511)

Non-best: create `epoch_{epoch}`, write optimizer blob, model blob and
`model.state`, remove `last_model` and replace it by a full copy of the new
numbered directory (`shutil.rmtree` + `shutil.copytree`), then delete
`epoch_{epoch-3}` if it exists. Best: write the same files into the fixed
`best_model` directory, leaving the numbered directories and `last_model`
untouched. -/

/-- The checkpoint directories of one model variant on disk; `α` is the
content of a checkpoint directory (blobs plus state record), and `numbered n`
is the content of `epoch_{n}` when that directory exists. -/
structure DiskState (α : Type) where
  numbered : ℤ → Option α
  last_model : Option α
  best_model : Option α

/-- A checkpoint root with no checkpoint directory yet. -/
def emptyDisk {α : Type} : DiskState α :=
  { numbered := fun _ => none, last_model := none, best_model := none }

/-- `MASRTrainer.save_model` on the directories of one model variant. -/
def save_model {α : Type} (d : DiskState α) (epoch : ℤ) (ck : α)
    (best_model : Bool) : DiskState α :=
  if best_model then { d with best_model := some ck }
  else
    let numbered1 : ℤ → Option α := fun n => if n = epoch then some ck else d.numbered n
    let numbered2 : ℤ → Option α := fun n => if n = epoch - 3 then none else numbered1 n
    { numbered := numbered2, last_model := numbered1 epoch, best_model := d.best_model }

/-- A run of non-best `save_model` calls at consecutive epoch numbers starting
at `e`, one call per list element. -/
def runSavesFrom {α : Type} (d : DiskState α) (e : ℤ) : List α → DiskState α
  | [] => d
  | ck :: cks => runSavesFrom (save_model d e ck false) (e + 1) cks

/-- A run of non-best `save_model` calls at consecutive epochs `e0, e0+1, ...`
starting from an empty checkpoint root. -/
def runSaves {α : Type} (e0 : ℤ) (cks : List α) : DiskState α :=
  runSavesFrom emptyDisk e0 cks

theorem save_model_nonbest_numbered {α : Type} (d : DiskState α) (e : ℤ) (ck : α)
    (n : ℤ) :
    (save_model d e ck false).numbered n =
      if n = e - 3 then none else if n = e then some ck else d.numbered n := by
  simp [save_model]

theorem save_model_nonbest_last {α : Type} (d : DiskState α) (e : ℤ) (ck : α) :
    (save_model d e ck false).last_model = some ck := by
  simp [save_model]

theorem save_model_nonbest_best {α : Type} (d : DiskState α) (e : ℤ) (ck : α) :
    (save_model d e ck false).best_model = d.best_model := by
  simp [save_model]

theorem runSavesFrom_support {α : Type} (cks : List α) :
    ∀ (d : DiskState α) (e : ℤ),
      (∀ n, ((d.numbered n).isSome = true) → e - 3 ≤ n ∧ n ≤ e - 1) →
      ∀ n, (((runSavesFrom d e cks).numbered n).isSome = true) →
        e + cks.length - 3 ≤ n ∧ n ≤ e + cks.length - 1 := by
  induction cks with
  | nil =>
    intro d e hd n hn
    have := hd n (by simpa [runSavesFrom] using hn)
    simp only [List.length_nil]
    omega
  | cons ck cks ih =>
    intro d e hd n hn
    have hstep : ∀ m, (((save_model d e ck false).numbered m).isSome = true) →
        (e + 1) - 3 ≤ m ∧ m ≤ (e + 1) - 1 := by
      intro m hm
      rw [save_model_nonbest_numbered] at hm
      by_cases h3 : m = e - 3
      · simp [h3] at hm
      · rw [if_neg h3] at hm
        by_cases he : m = e
        · omega
        · rw [if_neg he] at hm
          have := hd m hm
          omega
    have hrun : runSavesFrom d e (ck :: cks) =
        runSavesFrom (save_model d e ck false) (e + 1) cks := rfl
    rw [hrun] at hn
    have := ih (save_model d e ck false) (e + 1) hstep n hn
    simp only [List.length_cons] at this ⊢
    push_cast at this ⊢
    omega

/-- C4: each non-best `save_model` call at epoch `e` writes `epoch_{e}`,
replaces `last_model` with a full copy of its content, deletes `epoch_{e-3}`
and touches no other numbered directory; consequently after a run of non-best
saves at consecutive epoch numbers from an empty root, every remaining numbered
directory lies in a fixed 3-element set, so at most 4 numbered checkpoint
directories (plus `last_model` and `best_model`) exist after settling; a best
save touches neither the numbered directories nor `last_model`. -/
theorem C4_checkpoint_retention {α : Type} (d : DiskState α) (e : ℤ) (ck : α)
    (e0 : ℤ) (cks : List α) :
    (save_model d e ck false).numbered e = some ck ∧
    (save_model d e ck false).last_model = some ck ∧
    (save_model d e ck false).numbered (e - 3) = none ∧
    (∀ n, n ≠ e → n ≠ e - 3 → (save_model d e ck false).numbered n = d.numbered n) ∧
    (∀ n, (((runSaves e0 cks).numbered n).isSome = true) →
        n ∈ ({e0 + cks.length - 3, e0 + cks.length - 2, e0 + cks.length - 1} : Finset ℤ)) ∧
    ({e0 + (cks.length : ℤ) - 3, e0 + cks.length - 2, e0 + cks.length - 1} : Finset ℤ).card
        ≤ 4 ∧
    (∀ n, (save_model d e ck true).numbered n = d.numbered n) ∧
    (save_model d e ck true).last_model = d.last_model := by
  refine ⟨?_, save_model_nonbest_last d e ck, ?_, ?_, ?_, ?_, ?_, ?_⟩
  · rw [save_model_nonbest_numbered]
    rw [if_neg (by omega), if_pos rfl]
  · rw [save_model_nonbest_numbered]
    rw [if_pos rfl]
  · intro n hne hne3
    rw [save_model_nonbest_numbered, if_neg hne3, if_neg hne]
  · intro n hn
    have h := runSavesFrom_support cks emptyDisk e0 (by intro m hm; simp [emptyDisk] at hm) n hn
    have hmem : n = e0 + (cks.length : ℤ) - 3 ∨ n = e0 + cks.length - 2 ∨
        n = e0 + cks.length - 1 := by omega
    simp only [Finset.mem_insert, Finset.mem_singleton]
    exact hmem
  · apply le_trans (Finset.card_insert_le _ _)
    have h2 : ({e0 + (cks.length : ℤ) - 2, e0 + cks.length - 1} : Finset ℤ).card ≤ 2 := by
      apply le_trans (Finset.card_insert_le _ _)
      simp
    omega
  · intro n
    simp [save_model]
  · simp [save_model]

/-- Concrete instantiation of `C4_checkpoint_retention`: a first save at epoch 7
creates `epoch_7`, and after five consecutive saves at epochs 0..4 the numbered
directory `epoch_4` that remains lies in the retained 3-element window. -/
theorem C4_checkpoint_retention_witness :
    (save_model (emptyDisk : DiskState ℕ) 7 9 false).numbered 7 = some 9 ∧
    (4 : ℤ) ∈ ({0 + (([1, 2, 3, 4, 5] : List ℕ).length : ℤ) - 3,
        0 + (([1, 2, 3, 4, 5] : List ℕ).length : ℤ) - 2,
        0 + (([1, 2, 3, 4, 5] : List ℕ).length : ℤ) - 1} : Finset ℤ) := by
  constructor
  · exact (C4_checkpoint_retention (emptyDisk : DiskState ℕ) 7 9 0 []).1
  · exact (C4_checkpoint_retention (emptyDisk : DiskState ℕ) 0 0 0
      [1, 2, 3, 4, 5]).2.2.2.2.1 4 (by decide)

/-! ## Resume restoration (`MASRTrainer.train`, lines 323-345)

Python: the branch is taken when `resume_model is not None or
(os.path.exists(last_model/'model.pt') and os.path.exists(last_model/'optimizer.pt'))`;
inside, `resume_model` defaults to `last_model`, then
`assert os.path.exists(resume_model/'model.pt')` and
`assert os.path.exists(resume_model/'optimizer.pt')`, then model, optimizer and
the `model.state` record are loaded. -/

/-- What is on disk at a prospective resume directory: whether `model.pt`,
`optimizer.pt` and `model.state` exist, and the parsed record of the latter. -/
structure ResumeDir where
  has_model_pt : Bool
  has_optimizer_pt : Bool
  has_state_file : Bool
  state : JsonState
deriving DecidableEq

/-- Outcome of the resume phase of `train`. -/
inductive ResumeOutcome
  | fresh
  | assertModelMissing
  | assertOptimizerMissing
  | stateFileMissing
  | restored (st : JsonState)
deriving DecidableEq

/-- The resume phase of `train` (lines 323-345): `resume_model` is the
explicitly requested resume directory (`none` when the caller passed `None`),
`last_model` is what is on disk at `{save_model_path}/{use_model}/last_model`. -/
def resumePhase (resume_model : Option ResumeDir) (last_model : ResumeDir) :
    ResumeOutcome :=
  if resume_model.isSome
      || (last_model.has_model_pt && last_model.has_optimizer_pt) then
    let d := resume_model.getD last_model
    if !d.has_model_pt then ResumeOutcome.assertModelMissing
    else if !d.has_optimizer_pt then ResumeOutcome.assertOptimizerMissing
    else if !d.has_state_file then ResumeOutcome.stateFileMissing
    else ResumeOutcome.restored d.state
  else ResumeOutcome.fresh

/-- C5: `train` restores model, optimizer and scheduler state exactly when an
explicit resume path is given or a complete `last_model` checkpoint exists
under the checkpoint root; in the resumed path a missing model or optimizer
blob fails with an assertion (configuration error), and an explicitly requested
resume never silently falls through to a fresh start. -/
theorem C5_resume_restoration (rm : Option ResumeDir) (lm d : ResumeDir) :
    (∀ st, resumePhase rm lm = ResumeOutcome.restored st →
        rm.isSome = true ∨ (lm.has_model_pt = true ∧ lm.has_optimizer_pt = true)) ∧
    (rm = none → (lm.has_model_pt && lm.has_optimizer_pt) = false →
        resumePhase rm lm = ResumeOutcome.fresh) ∧
    (rm = some d → d.has_model_pt = false →
        resumePhase rm lm = ResumeOutcome.assertModelMissing) ∧
    (rm = some d → d.has_model_pt = true → d.has_optimizer_pt = false →
        resumePhase rm lm = ResumeOutcome.assertOptimizerMissing) ∧
    (rm = some d → resumePhase rm lm ≠ ResumeOutcome.fresh) ∧
    (rm = some d → d.has_model_pt = true → d.has_optimizer_pt = true →
        d.has_state_file = true → resumePhase rm lm = ResumeOutcome.restored d.state) ∧
    (rm = none → lm.has_model_pt = true → lm.has_optimizer_pt = true →
        lm.has_state_file = true → resumePhase rm lm = ResumeOutcome.restored lm.state) := by
  refine ⟨?_, ?_, ?_, ?_, ?_, ?_, ?_⟩
  · intro st h
    unfold resumePhase at h
    by_cases hc : (rm.isSome || (lm.has_model_pt && lm.has_optimizer_pt)) = true
    · simp only [Bool.or_eq_true, Bool.and_eq_true] at hc
      exact hc
    · rw [if_neg hc] at h
      simp at h
  · intro h1 h2
    unfold resumePhase
    rw [if_neg (by simp [h1, h2])]
  · intro h1 h2
    unfold resumePhase
    subst h1
    simp [h2]
  · intro h1 h2 h3
    unfold resumePhase
    subst h1
    simp [h2, h3]
  · intro h1
    unfold resumePhase
    subst h1
    by_cases hm : d.has_model_pt <;> by_cases ho : d.has_optimizer_pt <;>
      by_cases hs : d.has_state_file <;> simp [hm, ho, hs]
  · intro h1 h2 h3 h4
    unfold resumePhase
    subst h1
    simp [h2, h3, h4]
  · intro h1 h2 h3 h4
    unfold resumePhase
    subst h1
    simp [h2, h3, h4]

/-- Concrete instantiation of `C5_resume_restoration`: with no explicit resume
path and a complete `last_model` directory (record `last_epoch = 3`), the state
is restored from it; with an explicit resume directory missing `model.pt`, the
run fails with the assertion rather than starting fresh. -/
theorem C5_resume_restoration_witness :
    resumePhase none ⟨true, true, true, ⟨3, none, none⟩⟩ =
      ResumeOutcome.restored ⟨3, none, none⟩ ∧
    resumePhase (some ⟨false, true, true, ⟨3, none, none⟩⟩) ⟨false, false, false, ⟨0, none, none⟩⟩ =
      ResumeOutcome.assertModelMissing := by
  constructor
  · exact (C5_resume_restoration none ⟨true, true, true, ⟨3, none, none⟩⟩
      ⟨true, true, true, ⟨3, none, none⟩⟩).2.2.2.2.2.2 rfl rfl rfl rfl
  · exact (C5_resume_restoration (some ⟨false, true, true, ⟨3, none, none⟩⟩)
      ⟨false, false, false, ⟨0, none, none⟩⟩ ⟨false, true, true, ⟨3, none, none⟩⟩).2.2.1 rfl rfl

/-! ## Pretrained-weight loading (`MASRTrainer.train`, lines 312-321)

Python: `pretrained_dict = {k: v for k, v in pretrained_dict.items() if k in
model_dict}; model_dict.update(pretrained_dict); model.load_state_dict(model_dict)`.
The pretrained branch (lines 312-321) textually and dynamically precedes the
resume branch (lines 323-345). -/

/-- The dict comprehension filtering `pretrained_dict` down to the keys present
in `model_dict` (trainer.py line 318). A python dict is modelled as a map to
`Option`, `none` meaning the key is absent. -/
def filterToModelKeys {α : Type} (pretrained_dict model_dict : String → Option α) :
    String → Option α :=
  fun k => if (model_dict k).isSome then pretrained_dict k else none

/-- Python `dict.update`: entries of `upd` overwrite those of `base`. -/
def dictUpdate {α : Type} (base upd : String → Option α) : String → Option α :=
  fun k =>
    match upd k with
    | some v => some v
    | none => base k

/-- The state dict actually loaded by the pretrained branch (trainer.py
lines 315-320). -/
def loadPretrained {α : Type} (model_dict pretrained_dict : String → Option α) :
    String → Option α :=
  dictUpdate model_dict (filterToModelKeys pretrained_dict model_dict)

/-- The two optional restoration steps of `train`, in execution order. -/
inductive LoadOp
  | pretrainedLoad
  | resumeLoad
deriving DecidableEq

/-- Which restoration steps `train` executes and in which order: the pretrained
branch (lines 312-321) runs before the resume branch (lines 323-345). -/
def trainLoadOps (hasPretrained doResume : Bool) : List LoadOp :=
  (if hasPretrained then [LoadOp.pretrainedLoad] else []) ++
    (if doResume then [LoadOp.resumeLoad] else [])

/-- C7: when both a pretrained-weights path and a resume path are supplied, the
pretrained weights are applied before the resume restoration; pretrained
loading copies exactly the parameter entries whose names occur in the current
model state dict (overlapping names take the pretrained value, names absent
from the pretrained dict keep the model value), silently skips all
non-matching pretrained names, and preserves the model's key set, so the
subsequent strict `load_state_dict` cannot fail. -/
theorem C7_pretrained_before_resume {α : Type}
    (model_dict pretrained_dict : String → Option α) (k : String) (v : α) :
    trainLoadOps true true = [LoadOp.pretrainedLoad, LoadOp.resumeLoad] ∧
    ((loadPretrained model_dict pretrained_dict k).isSome = (model_dict k).isSome) ∧
    ((model_dict k).isSome = true → pretrained_dict k = some v →
        loadPretrained model_dict pretrained_dict k = some v) ∧
    (pretrained_dict k = none → loadPretrained model_dict pretrained_dict k = model_dict k) ∧
    (model_dict k = none → loadPretrained model_dict pretrained_dict k = none) := by
  refine ⟨rfl, ?_, ?_, ?_, ?_⟩
  · unfold loadPretrained dictUpdate filterToModelKeys
    by_cases hm : (model_dict k).isSome
    · rw [if_pos hm]
      cases hp : pretrained_dict k with
      | none => rfl
      | some v2 => simp [hm]
    · rw [if_neg hm]
  · intro hm hp
    unfold loadPretrained dictUpdate filterToModelKeys
    rw [if_pos hm, hp]
  · intro hp
    unfold loadPretrained dictUpdate filterToModelKeys
    by_cases hm : (model_dict k).isSome
    · rw [if_pos hm, hp]
    · rw [if_neg hm]
  · intro hm
    unfold loadPretrained dictUpdate filterToModelKeys
    rw [hm]
    simp

/-- Concrete instantiation of `C7_pretrained_before_resume`: the overlapping
key `"a"` receives the pretrained value `5`, and the pretrained-only key `"b"`
is silently skipped. -/
theorem C7_pretrained_before_resume_witness :
    loadPretrained (fun k => if k = "a" then some 1 else none)
        (fun k => if k = "a" then some 5 else if k = "b" then some 6 else none) "a"
      = some 5 ∧
    loadPretrained (fun k => if k = "a" then some (1 : ℕ) else none)
        (fun k => if k = "a" then some 5 else if k = "b" then some 6 else none) "b"
      = none := by
  constructor
  · exact (C7_pretrained_before_resume (fun k => if k = "a" then some 1 else none)
      (fun k => if k = "a" then some 5 else if k = "b" then some 6 else none)
      "a" 5).2.2.1 (by decide) (by decide)
  · exact (C7_pretrained_before_resume (fun k => if k = "a" then some (1 : ℕ) else none)
      (fun k => if k = "a" then some 5 else if k = "b" then some 6 else none)
      "b" 6).2.2.2.2 (by decide)

/-! ## KeyboardInterrupt handler (`MASRTrainer.train`, lines 434-446)

Python: `except KeyboardInterrupt:` — only `local_rank == 0` acts; it logs the
current loss `l`, and when `l` is unbound (no evaluation has run yet in this
process) the `NameError` handler sets `c, l = 1.0, 1e3`; then exactly one
`save_model(..., epoch=epoch, error_rate=c, test_loss=l)` call is made (with
the default `error_type='cer'` and `best_model=False`); the exception is not
re-raised. Other ranks do nothing. -/

/-- The arguments of one `save_model` call. -/
structure SaveCall where
  epoch : ℤ
  error_type : String
  error_rate : ℚ
  test_loss : ℚ
  best_model : Bool
deriving DecidableEq

/-- The `except KeyboardInterrupt` handler: `local_rank` is this worker's rank,
`epoch` the loop's current epoch variable, and `lastTest` the most recent
`(c, l)` pair produced by `__test` in this process, `none` when no evaluation
has run yet. Returns the `save_model` calls performed and whether the exception
propagates past the handler. -/
def handleInterrupt (local_rank : ℕ) (epoch : ℤ) (lastTest : Option (ℚ × ℚ)) :
    List SaveCall × Bool :=
  if local_rank = 0 then
    let cl := lastTest.getD (1, 1000)
    ([⟨epoch, "cer", cl.1, cl.2, false⟩], false)
  else ([], false)

/-- C2: on an external interrupt during the training loop, the coordinator
(rank 0) writes exactly one checkpoint — with placeholder error rate `1.0` and
loss `1e3` when no evaluation has produced values yet in this process — and the
exception never propagates past the handler, while non-coordinator workers
write no checkpoint. -/
theorem C2_interrupt_single_checkpoint (local_rank : ℕ) (epoch : ℤ)
    (lastTest : Option (ℚ × ℚ)) :
    (handleInterrupt local_rank epoch lastTest).2 = false ∧
    (local_rank = 0 → (handleInterrupt local_rank epoch lastTest).1.length = 1) ∧
    (local_rank = 0 → lastTest = none →
        (handleInterrupt local_rank epoch lastTest).1 = [⟨epoch, "cer", 1, 1000, false⟩]) ∧
    (local_rank ≠ 0 → (handleInterrupt local_rank epoch lastTest).1 = []) := by
  refine ⟨?_, ?_, ?_, ?_⟩
  · unfold handleInterrupt
    by_cases h : local_rank = 0 <;> simp [h]
  · intro h
    simp [handleInterrupt, h]
  · intro h hl
    simp [handleInterrupt, h, hl]
  · intro h
    unfold handleInterrupt
    rw [if_neg h]

/-- Concrete instantiation of `C2_interrupt_single_checkpoint`: rank 0
interrupted during epoch 1 before any evaluation writes the placeholder
checkpoint, rank 1 writes nothing. -/
theorem C2_interrupt_single_checkpoint_witness :
    (handleInterrupt 0 1 none).1 = [⟨1, "cer", 1, 1000, false⟩] ∧
    (handleInterrupt 1 1 none).1 = [] :=
  ⟨(C2_interrupt_single_checkpoint 0 1 none).2.2.1 rfl rfl,
   (C2_interrupt_single_checkpoint 1 1 none).2.2.2 (by decide)⟩

/-! ## Decoder dispatch (`MASRTrainer.decoder_result`, lines 513-544)

Python: when `self.decoder == "ctc_beam_search"` and
`self.beam_search_decoder is None`, on a non-Windows platform it tries the
optional library and constructs the beam-search decoder, and on `ModuleNotFoundError`
logs the fallback warning block and sets `self.decoder = 'ctc_greedy'`; on
Windows it logs the warning block and switches likewise. Then the call decodes
with the greedy decoder when `self.decoder == 'ctc_greedy'` and with
`self.beam_search_decoder` otherwise. -/

/-- The environment of a run: platform and availability of the optional
`paddlespeech-ctcdecoders` library. -/
structure DecoderEnv where
  isWindows : Bool
  beamLibAvailable : Bool
deriving DecidableEq

/-- The decoder-relevant mutable fields of the trainer: `self.decoder` and
whether `self.beam_search_decoder` is constructed (not `None`). -/
structure DecoderState where
  decoder : String
  hasBeamSearchDecoder : Bool
deriving DecidableEq

/-- Which decoding strategy produced the returned hypothesis strings. -/
inductive DecodeMethod
  | greedy
  | beamSearch
deriving DecidableEq

/-- One call to `decoder_result`: returns the updated trainer state, whether
this call emitted the fallback warning block, and the decoding strategy used;
`Except.error` models the `AttributeError` of invoking a method on a `None`
beam-search decoder (unreachable in the scenarios below). -/
def decoder_result (env : DecoderEnv) (s : DecoderState) :
    Except String (DecoderState × Bool × DecodeMethod) :=
  let fb :=
    if s.decoder = "ctc_beam_search" && !s.hasBeamSearchDecoder then
      if !env.isWindows then
        if env.beamLibAvailable then ({ s with hasBeamSearchDecoder := true }, false)
        else ({ s with decoder := "ctc_greedy" }, true)
      else ({ s with decoder := "ctc_greedy" }, true)
    else (s, false)
  if fb.1.decoder = "ctc_greedy" then Except.ok (fb.1, fb.2, DecodeMethod.greedy)
  else if fb.1.hasBeamSearchDecoder then Except.ok (fb.1, fb.2, DecodeMethod.beamSearch)
  else Except.error "AttributeError"

/-- `n` successive calls to `decoder_result` in one run: returns the final
trainer state, the total number of fallback warning blocks emitted, and the
strategy used by each call in order. -/
def runDecoderCalls (env : DecoderEnv) : ℕ → DecoderState →
    Except String (DecoderState × ℕ × List DecodeMethod)
  | 0, s => Except.ok (s, 0, [])
  | n + 1, s =>
    match decoder_result env s with
    | Except.error e => Except.error e
    | Except.ok (s1, warned, m) =>
      match runDecoderCalls env n s1 with
      | Except.error e => Except.error e
      | Except.ok (s2, w, ms) => Except.ok (s2, (if warned then 1 else 0) + w, m :: ms)

theorem decoder_result_fallback (env : DecoderEnv)
    (h : env.isWindows = true ∨ env.beamLibAvailable = false) :
    decoder_result env ⟨"ctc_beam_search", false⟩ =
      Except.ok (⟨"ctc_greedy", false⟩, true, DecodeMethod.greedy) := by
  obtain ⟨w, b⟩ := env
  rcases h with h | h
  · simp only at h
    subst h
    cases b <;> rfl
  · simp only at h
    subst h
    cases w <;> rfl

theorem decoder_result_greedy_stable (env : DecoderEnv) :
    decoder_result env ⟨"ctc_greedy", false⟩ =
      Except.ok (⟨"ctc_greedy", false⟩, false, DecodeMethod.greedy) := by
  obtain ⟨w, b⟩ := env
  cases w <;> cases b <;> rfl

theorem runDecoderCalls_succ_ok (env : DecoderEnv) (n : ℕ) (s s1 : DecoderState)
    (warned : Bool) (m : DecodeMethod)
    (h : decoder_result env s = Except.ok (s1, warned, m))
    (s2 : DecoderState) (w : ℕ) (ms : List DecodeMethod)
    (h2 : runDecoderCalls env n s1 = Except.ok (s2, w, ms)) :
    runDecoderCalls env (n + 1) s =
      Except.ok (s2, (if warned then 1 else 0) + w, m :: ms) := by
  show (match decoder_result env s with
    | Except.error e => Except.error e
    | Except.ok (s1, warned, mth) =>
      match runDecoderCalls env n s1 with
      | Except.error e => Except.error e
      | Except.ok (s2, w2, ms2) =>
          Except.ok (s2, (if warned then 1 else 0) + w2, mth :: ms2)) = _
  rw [h]
  show (match runDecoderCalls env n s1 with
    | Except.error e => Except.error e
    | Except.ok (s2, w2, ms2) =>
        Except.ok (s2, (if warned then 1 else 0) + w2, m :: ms2)) = _
  rw [h2]

theorem runDecoderCalls_greedy (env : DecoderEnv) (n : ℕ) :
    runDecoderCalls env n ⟨"ctc_greedy", false⟩ =
      Except.ok (⟨"ctc_greedy", false⟩, 0, List.replicate n DecodeMethod.greedy) := by
  induction n with
  | zero => rfl
  | succ m ih =>
    have h := runDecoderCalls_succ_ok env m ⟨"ctc_greedy", false⟩ ⟨"ctc_greedy", false⟩
      false DecodeMethod.greedy (decoder_result_greedy_stable env)
      ⟨"ctc_greedy", false⟩ 0 (List.replicate m DecodeMethod.greedy) ih
    rw [h]
    simp [List.replicate_succ]

/-- C6: if beam-search decoding is requested but the optional decoder library
is unavailable or the platform is Windows, then over any whole run of `n ≥ 1`
decode calls the fallback warning block is logged exactly once, the decoder is
permanently switched to greedy, and every call — including all subsequent ones
— returns greedy-decoded results without raising. -/
theorem C6_beam_search_fallback (env : DecoderEnv) (n : ℕ)
    (hunav : env.isWindows = true ∨ env.beamLibAvailable = false) (hn : 1 ≤ n) :
    runDecoderCalls env n ⟨"ctc_beam_search", false⟩ =
      Except.ok (⟨"ctc_greedy", false⟩, 1, List.replicate n DecodeMethod.greedy) := by
  obtain ⟨m, rfl⟩ : ∃ m, n = m + 1 := ⟨n - 1, by omega⟩
  have h := runDecoderCalls_succ_ok env m ⟨"ctc_beam_search", false⟩ ⟨"ctc_greedy", false⟩
    true DecodeMethod.greedy (decoder_result_fallback env hunav)
    ⟨"ctc_greedy", false⟩ 0 (List.replicate m DecodeMethod.greedy)
    (runDecoderCalls_greedy env m)
  rw [h]
  simp [List.replicate_succ]

/-- Concrete instantiation of `C6_beam_search_fallback`: three decode calls on
a non-Windows platform without the library warn once and all decode greedily. -/
theorem C6_beam_search_fallback_witness :
    runDecoderCalls ⟨false, false⟩ 3 ⟨"ctc_beam_search", false⟩ =
      Except.ok (⟨"ctc_greedy", false⟩, 1, List.replicate 3 DecodeMethod.greedy) :=
  C6_beam_search_fallback ⟨false, false⟩ 3 (Or.inr rfl) (by omega)

end MASR
